import Mathlib

/-
Shallow embedding of the fulcrum Lever-export tool (dklassen/fulcrum).

Modelled sources: `fulcrum.go` (the final revision of the engine: endpoint
descriptors, URL construction, `ExecuteLeverRequest`, `OutputList`,
`DownloadUsingList`, `Download`) and the checkpoint file
(`Checkpoint`, `ReachedCheckpoint`, `LastProcessedID`, `UpdateLastID`,
`CheckPoint`).

Modelling conventions:
- Records decoded from a page's `data` array are uninterpreted tokens (`String`).
- The network is an oracle: a list of `HttpResult` values consumed one per
  request, in order.  An exhausted oracle is reported as
  `RunErr.oracleExhausted`; it stands for a server that never answers and is
  outside the hypotheses of every theorem below.
- The durable checkpoint file is a value of type `Option String`
  (`none` = file absent / unreadable; `ioutil.ReadFile` failure is logged in
  Go and yields empty content, which `readDurable` mirrors).
- `logrus.Fatal` / `logrus.Panic` terminate the process; both are modelled as
  error outcomes (`RunErr.fatal…`, `RunErr.panicNilData`) that abort the run.
- Observable behaviour is a list of `Event`s: rate-limiter permits
  (`acquire`, one per `<-throttle` receive in `DownloadUsingList`), outbound
  requests (`fetch` with the request URL), emitted records (`emit`), and
  durable checkpoint writes (`persist` with the value written).
- Go's `url` percent-encoding of reserved characters is elided; query
  encoding keeps `url.Values.Encode`'s sort-by-key behaviour.
-/

/-- Go global `baseURI`. -/
def baseURI : String := "api.lever.co/v1/"

/-- Go struct `QueryParam`. -/
structure QueryParam where
  Field : String
  Value : String
deriving Repr, DecidableEq

/-- Go struct `Endpoint`.  The Go field `Type` is spelled `Type'` (Lean
reserves `Type`); the function-valued `Handler` field and the unused `Data`
reader are omitted (which handler an endpoint uses is recorded in
`registeredListEndpoints` / `registeredDirectEndpoints`). -/
structure Endpoint where
  Name : String := ""
  Type' : String := ""
  Method : String := ""
  Offset : String := ""
  HasNext : Bool := false
  SprintfPath : String := ""
  Arguments : List String := []
  QueryParams : List QueryParam := []
deriving Repr, DecidableEq

/-- One `%s` substitution pass of Go's `fmt.Sprintf`, on character lists:
each `%s` is replaced by the next argument.  (With matching argument counts,
as in every registry entry, this agrees with `fmt.Sprintf`.) -/
def substPercentS : List Char → List String → List Char
  | [], _ => []
  | '%' :: 's' :: rest, a :: args => a.data ++ substPercentS rest args
  | c :: rest, args => c :: substPercentS rest args

/-- `fmt.Sprintf` restricted to `%s` verbs. -/
def sprintfS (tmpl : String) (args : List String) : String :=
  ⟨substPercentS tmpl.data args⟩

/-- Go `path.Join` specialised to the shapes occurring in the registry
(first component with a trailing slash, second with a leading slash):
drop a trailing slash of the first component and force a leading slash on
the second. -/
def pathJoin (a b : String) : String :=
  let a' := if a.data.getLast? = some '/' then a.data.dropLast else a.data
  let b' := if b.data.head? = some '/' then b.data else '/' :: b.data
  ⟨a' ++ b'⟩

/-- Go method `PartialPath`: `path.Join(baseURI, endpoint.SprintfPath)`. -/
def Endpoint.JoinedPath (e : Endpoint) : String :=
  pathJoin baseURI e.SprintfPath

/-- Go method `URL`: substitute `Arguments` into the path template and force
the `https` scheme.  (`url.Parse` failure, a `logrus.Fatal`, is impossible
for the registry's templates and is not modelled.) -/
def Endpoint.URL (e : Endpoint) : String :=
  "https://" ++ sprintfS e.JoinedPath e.Arguments

/-- `url.Values.Set`: replace the value under a key, or append the key. -/
def setParam (q : List (String × String)) (k v : String) : List (String × String) :=
  if q.any fun p => p.1 == k then
    q.map fun p => if p.1 == k then (k, v) else p
  else q ++ [(k, v)]

/-- Insertion step for the key-sorted rendering of `url.Values.Encode`. -/
def insortParam (p : String × String) : List (String × String) → List (String × String)
  | [] => [p]
  | q :: qs => if p.1 ≤ q.1 then p :: q :: qs else q :: insortParam p qs

/-- `url.Values.Encode` sorts parameters by key. -/
def sortParams (l : List (String × String)) : List (String × String) :=
  l.foldr insortParam []

/-- Rendering of `url.Values.Encode` (percent-encoding elided). -/
def encodeQuery (q : List (String × String)) : String :=
  String.intercalate "&" ((sortParams q).map fun p => p.1 ++ "=" ++ p.2)

/-- The query pairs `URLString` sets: every `QueryParams` entry via
`q.Set(param.Field, param.Value)`, then `offset` when `Offset` is
non-empty. -/
def Endpoint.urlQuery (e : Endpoint) : List (String × String) :=
  let q := e.QueryParams.foldl (fun acc p => setParam acc p.Field p.Value) []
  if e.Offset ≠ "" then setParam q "offset" e.Offset else q

/-- Go method `URLString`. -/
def Endpoint.URLString (e : Endpoint) : String :=
  let q := e.urlQuery
  if q.isEmpty then e.URL else e.URL ++ "?" ++ encodeQuery q

/-- The decoded `data` field of a page envelope, as seen by the later
`json.Unmarshal` into a typed slice: `malformed` (unmarshal error, including
an absent `data` field), `null` (JSON `null`, decoding to a nil slice), or a
list of records. -/
inductive RawData where
  | malformed
  | null
  | records (recs : List String)
deriving Repr, DecidableEq

/-- Go struct `LeverData` (the page envelope). -/
structure LeverData where
  Data : RawData
  Next : String
  HasNext : Bool
deriving Repr, DecidableEq

/-- The body of an HTTP response: either not a well-formed envelope
(`json.Unmarshal(body, &leverData)` fails) or a decoded envelope. -/
inductive Body where
  | malformed
  | envelope (ld : LeverData)
deriving Repr, DecidableEq

/-- One answer of the network oracle: a transport failure from
`client.Do`, or a status code with a body. -/
inductive HttpResult where
  | transportErr (msg : String)
  | response (statusCode : Nat) (body : Body)
deriving Repr, DecidableEq

/-- Every way a run can stop before finishing.  `statusNotFound` is the Go
sentinel `StatusNotFound`; the `fatal…` values are `logrus.Fatal` sites;
`panicNilData` is the `logrus.Panic` in `OutputList`. -/
inductive RunErr where
  | statusNotFound
  | unexpectedStatus (code : Nat) (url : String)
  | transport (msg : String)
  | envelopeDecode
  | fatalDecode
  | fatalUnknownType (t : String)
  | fatalCSV
  | fatalNoInput
  | fatalOpen
  | fatalPersist
  | panicNilData
  | oracleExhausted
deriving Repr, DecidableEq

/-- Observable events of a run. -/
inductive Event where
  | acquire
  | fetch (url : String)
  | emit (rec : String)
  | persist (value : String)
deriving Repr, DecidableEq

def emitVal : Event → Option String
  | .emit r => some r
  | _ => none

/-- The records emitted by a run, in order. -/
def emittedOf (l : List Event) : List String := l.filterMap emitVal

def persistVal : Event → Option String
  | .persist v => some v
  | _ => none

/-- The durable checkpoint writes of a run, in order. -/
def persistsOf (l : List Event) : List String := l.filterMap persistVal

def isAcquire : Event → Bool
  | .acquire => true
  | _ => false

/-- No rate-limit permit is ever taken. -/
def noAcquire (l : List Event) : Bool := l.all fun ev => !isAcquire ev

/-- Every `fetch` is immediately preceded by its own `acquire`. -/
def acquiredOK : List Event → Bool
  | [] => true
  | .acquire :: .fetch _ :: rest => acquiredOK rest
  | .fetch _ :: _ => false
  | _ :: rest => acquiredOK rest

/-- Go `ExecuteLeverRequest`: build the request from the descriptor's
current `URLString`, classify the response (`!= 200`, then `== 404`), decode
the envelope, and on success write `Next`/`HasNext` back onto the
descriptor.  The returned `Endpoint` is the descriptor after the call. -/
def ExecuteLeverRequest (e : Endpoint) (r : HttpResult) :
    Except RunErr (LeverData × Endpoint) :=
  match r with
  | .transportErr msg => .error (.transport msg)
  | .response code body =>
    if code ≠ 200 then
      if code = 404 then .error .statusNotFound
      else .error (.unexpectedStatus code e.URLString)
    else
      match body with
      | .malformed => .error .envelopeDecode
      | .envelope ld => .ok (ld, { e with Offset := ld.Next, HasNext := ld.HasNext })

/-- `json.Unmarshal(leverData.Data, &typedSlice)`: a malformed blob is a
`logrus.Fatal`; JSON `null` decodes to a nil slice; otherwise the list of
records. -/
def unmarshalList : RawData → Except RunErr (Option (List String))
  | .malformed => .error .fatalDecode
  | .null => .ok none
  | .records recs => .ok (some recs)

/-- Go `OutputList`: a nil slice trips `logrus.Panic`; otherwise each
element is emitted in index order. -/
def OutputList : Option (List String) → Except RunErr (List Event)
  | none => .error .panicNilData
  | some recs => .ok (recs.map Event.emit)

/-- The `case` arms of the decode `switch` in `DownloadUsingList`. -/
def listTypes : List String :=
  ["interviews", "applications", "feedback", "stages", "resumes", "referrals"]

/-- The `case` arms of the decode `switch` in `Download`. -/
def directTypes : List String :=
  ["users", "archivedReasons", "postings", "candidates", "stages"]

/-- The decode `switch` on `endpoint.Type`: every recognised tag unmarshals
the page's `data` into a typed slice and hands it to `OutputList`; an
unrecognised tag is a `logrus.Fatal`. -/
def dispatchEmit (t : String) (known : List String) (d : RawData) :
    Except RunErr (List Event) :=
  if known.contains t then
    match unmarshalList d with
    | .error err => .error err
    | .ok v => OutputList v
  else .error (.fatalUnknownType t)

/-- Go struct `Checkpoint`. -/
structure Checkpoint where
  FilePath : String
  LastSeenID : String
  HasReachedCheckpoint : Bool
deriving Repr, DecidableEq

/-- Go `NewCheckpoint`. -/
def NewCheckpoint (pfx : String) : Checkpoint :=
  ⟨"/tmp/" ++ pfx ++ "_candidate_id", "", false⟩

/-- `ioutil.ReadFile` on the durable record: a read failure is logged and
yields empty content. -/
def readDurable : Option String → String
  | none => ""
  | some s => s

/-- Go method `LastProcessedID`: return the in-memory `LastSeenID` when
non-empty, else read the durable record and cache it. -/
def Checkpoint.LastProcessedID (cp : Checkpoint) (durable : Option String) :
    String × Checkpoint :=
  if cp.LastSeenID ≠ "" then (cp.LastSeenID, cp)
  else
    let s := readDurable durable
    (s, { cp with LastSeenID := s })

/-- Go method `ReachedCheckpoint`, including the `&&` short-circuit (the
second `LastProcessedID` call only happens when the latch is still false). -/
def Checkpoint.ReachedCheckpoint (cp : Checkpoint) (durable : Option String)
    (id : String) : Bool × Checkpoint :=
  let p1 := cp.LastProcessedID durable
  let cp1 :=
    if p1.1 = "" then { p1.2 with LastSeenID := id, HasReachedCheckpoint := true }
    else p1.2
  let cp2 :=
    if cp1.HasReachedCheckpoint then cp1
    else
      let p2 := cp1.LastProcessedID durable
      if id = p2.1 then { p2.2 with HasReachedCheckpoint := true } else p2.2
  (cp2.HasReachedCheckpoint, cp2)

/-- Go method `UpdateLastID`. -/
def Checkpoint.UpdateLastID (cp : Checkpoint) (id : String) : Checkpoint :=
  { cp with LastSeenID := id }

/-- Go method `CheckPoint`: write `LastProcessedID()` to the durable record
(whole-file replace); a write failure is a `logrus.Fatal`.  `writeOk` is the
file-system oracle for this write.  Returns the written value, the
checkpoint after the embedded `LastProcessedID` call, and the new durable
content. -/
def Checkpoint.CheckPoint (cp : Checkpoint) (durable : Option String)
    (writeOk : Bool) : Except RunErr (String × Checkpoint × Option String) :=
  let p := cp.LastProcessedID durable
  if writeOk then .ok (p.1, p.2, some p.1) else .error .fatalPersist

/-- One `csv.Reader.Read` result: a row (first field = parent key, then the
remaining fields; `csv` never yields an empty record together with a nil
error) or a parse error (`logrus.Fatal`). -/
inductive CSVRead where
  | row (candidateID : String) (restFields : List String)
  | malformed
deriving Repr, DecidableEq

/-- Pop the next answer of the checkpoint-write oracle (defaults to a
successful write once the oracle list is exhausted). -/
def popWrite : List Bool → Bool × List Bool
  | [] => (true, [])
  | b :: bs => (b, bs)

/-- Result of a list-driven run: its events, its outcome, the final durable
checkpoint content, and the final in-memory checkpoint. -/
structure RunOut where
  events : List Event
  result : Except RunErr Unit
  durable : Option String
  cp : Checkpoint
deriving Repr

/-- How the per-key pagination loop of `DownloadUsingList` was left: by the
`!endpoint.HasNext` break, or by the `StatusNotFound` break.  Carries the
descriptor as it stands at the break (the state the next key reuses). -/
inductive PageExit where
  | done (e : Endpoint)
  | notFound (e : Endpoint)
deriving Repr

/-- The inner `for` loop of `DownloadUsingList`, for one key: receive a
permit from `throttle`, fetch, decode-and-emit, and repeat while `HasNext`.
Returns the events, the unconsumed remainder of the network oracle, and the
exit (or abort). -/
def DownloadUsingListPages (e : Endpoint) (resps : List HttpResult) :
    List Event × List HttpResult × Except RunErr PageExit :=
  match resps with
  | [] => ([], [], .error .oracleExhausted)
  | r :: rest =>
    let evs := [Event.acquire, Event.fetch e.URLString]
    match ExecuteLeverRequest e r with
    | .error .statusNotFound => (evs, rest, .ok (.notFound e))
    | .error err => (evs, rest, .error err)
    | .ok (ld, e1) =>
      match dispatchEmit e1.Type' listTypes ld.Data with
      | .error err => (evs, rest, .error err)
      | .ok emits =>
        if e1.HasNext then
          let t := DownloadUsingListPages e1 rest
          (evs ++ emits ++ t.1, t.2.1, t.2.2)
        else (evs ++ emits, rest, .ok (.done e1))

/-- The outer `for` loop of `DownloadUsingList`, over the CSV rows.  Each
row consults `ReachedCheckpoint` (skipping the key entirely while false),
then sets `Arguments` to the key, drains the key's pages, and on completion
(including the 404 break) runs `UpdateLastID` and `CheckPoint`.  The
descriptor mutated by the drain is carried into the next key. -/
def DownloadUsingListLoop (e : Endpoint) (rows : List CSVRead) (cp : Checkpoint)
    (durable : Option String) (resps : List HttpResult) (writes : List Bool) :
    RunOut :=
  match rows with
  | [] => ⟨[], .ok (), durable, cp⟩
  | .malformed :: _ => ⟨[], .error .fatalCSV, durable, cp⟩
  | .row candidateID _flds :: restRows =>
    let rc := cp.ReachedCheckpoint durable candidateID
    if rc.1 then
      let e1 := { e with Arguments := [candidateID] }
      let t := DownloadUsingListPages e1 resps
      match t.2.2 with
      | .error err => ⟨t.1, .error err, durable, rc.2⟩
      | .ok pexit =>
        let e2 := match pexit with | .done ep => ep | .notFound ep => ep
        let cp2 := rc.2.UpdateLastID candidateID
        let pw := popWrite writes
        match cp2.CheckPoint durable pw.1 with
        | .error err => ⟨t.1, .error err, durable, cp2⟩
        | .ok (written, cp3, durable2) =>
          let k := DownloadUsingListLoop e2 restRows cp3 durable2 t.2.1 pw.2
          ⟨t.1 ++ Event.persist written :: k.events, k.result, k.durable, k.cp⟩
    else
      DownloadUsingListLoop e restRows rc.2 durable resps writes

/-- Go `DownloadUsingList`: an empty input path and a failed `os.Open` are
`logrus.Fatal`; otherwise run the row loop. -/
def DownloadUsingList (e : Endpoint) (input : String) (openOk : Bool)
    (rows : List CSVRead) (cp : Checkpoint) (durable : Option String)
    (resps : List HttpResult) (writes : List Bool) : RunOut :=
  if input = "" then ⟨[], .error .fatalNoInput, durable, cp⟩
  else if openOk then DownloadUsingListLoop e rows cp durable resps writes
  else ⟨[], .error .fatalOpen, durable, cp⟩

/-- Go `Download` (the direct orchestrator): fetch, decode-and-emit, repeat
while `HasNext`.  No rate limiting, no checkpointing; `input` and `state`
are accepted and ignored, as in the source. -/
def Download (e : Endpoint) (input : String) (state : Checkpoint)
    (resps : List HttpResult) : List Event × Except RunErr Unit :=
  match resps with
  | [] => ([], .error .oracleExhausted)
  | r :: rest =>
    let evs := [Event.fetch e.URLString]
    match ExecuteLeverRequest e r with
    | .error err => (evs, .error err)
    | .ok (ld, e1) =>
      match dispatchEmit e1.Type' directTypes ld.Data with
      | .error err => (evs, .error err)
      | .ok emits =>
        if e1.HasNext then
          let t := Download e1 input state rest
          (evs ++ emits ++ t.1, t.2)
        else (evs ++ emits, .ok ())

/-- `registeredEndpoints` entry `downloadUsers` (handler `Download`). -/
def downloadUsersEndpoint : Endpoint :=
  { Name := "Download Users", Type' := "users", Method := "GET",
    SprintfPath := "/users" }

/-- `registeredEndpoints` entry `downloadInterviews` (handler
`DownloadUsingList`). -/
def downloadInterviewsEndpoint : Endpoint :=
  { Name := "Download Interviews", Type' := "interviews", Method := "GET",
    SprintfPath := "/candidates/%s/interviews" }

/-- The `rate := time.Second / 10` interval of the `throttle` ticker in
`DownloadUsingList`, in milliseconds. -/
def throttleRateMs : Nat := 1000 / 10

/-- A page together with its `next` token; `pagesToResps` wires the
has-more flags so that every page but the last reports `hasNext = true` and
the last reports `hasNext = false`. -/
structure GoodPage where
  recs : List String
  next : String
deriving Repr, DecidableEq

def pageResp (p : GoodPage) (more : Bool) : HttpResult :=
  .response 200 (.envelope ⟨.records p.recs, p.next, more⟩)

def pagesToResps : List GoodPage → List HttpResult
  | [] => []
  | [p] => [pageResp p false]
  | p :: q :: ps => pageResp p true :: pagesToResps (q :: ps)

/-- A key source whose rows are bare parent keys. -/
def keysToRows (ks : List String) : List CSVRead :=
  ks.map fun k => CSVRead.row k []

theorem emittedOf_append (a b : List Event) :
    emittedOf (a ++ b) = emittedOf a ++ emittedOf b := by
  simp [emittedOf]

theorem emittedOf_cons_acquire (l : List Event) :
    emittedOf (Event.acquire :: l) = emittedOf l := by
  simp [emittedOf, emitVal]

theorem emittedOf_cons_fetch (u : String) (l : List Event) :
    emittedOf (Event.fetch u :: l) = emittedOf l := by
  simp [emittedOf, emitVal]

theorem emittedOf_cons_persist (v : String) (l : List Event) :
    emittedOf (Event.persist v :: l) = emittedOf l := by
  simp [emittedOf, emitVal]

theorem emittedOf_cons_emit (r : String) (l : List Event) :
    emittedOf (Event.emit r :: l) = r :: emittedOf l := by
  simp [emittedOf, emitVal]

theorem emittedOf_map_emit (l : List String) :
    emittedOf (l.map Event.emit) = l := by
  induction l with
  | nil => rfl
  | cons a t ih => rw [List.map_cons, emittedOf_cons_emit, ih]

theorem persistsOf_append (a b : List Event) :
    persistsOf (a ++ b) = persistsOf a ++ persistsOf b := by
  simp [persistsOf]

theorem persistsOf_cons_acquire (l : List Event) :
    persistsOf (Event.acquire :: l) = persistsOf l := by
  simp [persistsOf, persistVal]

theorem persistsOf_cons_fetch (u : String) (l : List Event) :
    persistsOf (Event.fetch u :: l) = persistsOf l := by
  simp [persistsOf, persistVal]

theorem persistsOf_cons_emit (r : String) (l : List Event) :
    persistsOf (Event.emit r :: l) = persistsOf l := by
  simp [persistsOf, persistVal]

theorem persistsOf_cons_persist (v : String) (l : List Event) :
    persistsOf (Event.persist v :: l) = v :: persistsOf l := by
  simp [persistsOf, persistVal]

theorem persistsOf_map_emit (l : List String) :
    persistsOf (l.map Event.emit) = [] := by
  induction l with
  | nil => rfl
  | cons a t ih => rw [List.map_cons, persistsOf_cons_emit, ih]

theorem persistsOf_nil : persistsOf [] = [] := rfl

theorem emittedOf_nil : emittedOf [] = [] := rfl

theorem dispatchEmit_ok {t : String} {kn : List String} {d : RawData}
    {evs : List Event} (h : dispatchEmit t kn d = .ok evs) :
    ∃ recs : List String, evs = recs.map Event.emit := by
  by_cases hk : t ∈ kn
  · cases d with
    | malformed => simp [dispatchEmit, hk, unmarshalList] at h
    | null => simp [dispatchEmit, hk, unmarshalList, OutputList] at h
    | records recs =>
      refine ⟨recs, ?_⟩
      have hc : dispatchEmit t kn (.records recs) = .ok (recs.map Event.emit) := by
        simp [dispatchEmit, hk, unmarshalList, OutputList]
      rw [hc] at h
      exact (Except.ok.inj h).symm
  · simp [dispatchEmit, hk] at h

theorem pages_no_persist (resps : List HttpResult) :
    ∀ e : Endpoint, persistsOf (DownloadUsingListPages e resps).1 = [] := by
  induction resps with
  | nil => intro e; rfl
  | cons r rest ih =>
    intro e
    simp only [DownloadUsingListPages]
    cases hx : ExecuteLeverRequest e r with
    | error err =>
      cases err <;>
        simp [persistsOf_cons_acquire, persistsOf_cons_fetch, persistsOf_nil]
    | ok pr =>
      obtain ⟨ld, e1⟩ := pr
      cases hd : dispatchEmit e1.Type' listTypes ld.Data with
      | error err =>
        simp [hd, persistsOf_cons_acquire, persistsOf_cons_fetch, persistsOf_nil]
      | ok emits =>
        obtain ⟨recs, rfl⟩ := dispatchEmit_ok hd
        by_cases hn : e1.HasNext <;>
          simp [hd, hn, persistsOf_append, persistsOf_map_emit,
            persistsOf_cons_acquire, persistsOf_cons_fetch, persistsOf_nil, ih e1]

theorem acquiredOK_nil : acquiredOK [] = true := rfl

theorem acquiredOK_cons_pair (u : String) (l : List Event) :
    acquiredOK (Event.acquire :: Event.fetch u :: l) = acquiredOK l := by
  simp [acquiredOK]

theorem acquiredOK_cons_emit (r : String) (l : List Event) :
    acquiredOK (Event.emit r :: l) = acquiredOK l := by
  simp [acquiredOK]

theorem acquiredOK_cons_persist (v : String) (l : List Event) :
    acquiredOK (Event.persist v :: l) = acquiredOK l := by
  simp [acquiredOK]

theorem acquiredOK_emit_append (l : List String) (tail : List Event) :
    acquiredOK (l.map Event.emit ++ tail) = acquiredOK tail := by
  induction l with
  | nil => rfl
  | cons a t ih => rw [List.map_cons, List.cons_append, acquiredOK_cons_emit, ih]

theorem noAcquire_append (a b : List Event) :
    noAcquire (a ++ b) = (noAcquire a && noAcquire b) := by
  simp [noAcquire]

theorem noAcquire_cons_fetch (u : String) (l : List Event) :
    noAcquire (Event.fetch u :: l) = noAcquire l := by
  simp [noAcquire, isAcquire]

theorem noAcquire_map_emit (l : List String) :
    noAcquire (l.map Event.emit) = true := by
  induction l with
  | nil => rfl
  | cons a t ih => simp [noAcquire, isAcquire]

/-- C3: for every finite sequence of pages in which every page but the last
reports has-more = true and the last reports has-more = false (encoded by
`pagesToResps`), the drain loop `Download` terminates with `.ok ()` after
fetching exactly those pages, and emits exactly the concatenation of all
pages' decoded records, in page order and, within a page, in the order of
the page's data array. -/
theorem c3_download_drains_pages (e : Endpoint) (input : String)
    (st : Checkpoint) (pages : List GoodPage)
    (he : e.Type' ∈ directTypes) (hp : pages ≠ []) :
    (Download e input st (pagesToResps pages)).2 = .ok ()
    ∧ emittedOf (Download e input st (pagesToResps pages)).1
        = (pages.map GoodPage.recs).flatten := by
  induction pages generalizing e with
  | nil => exact absurd rfl hp
  | cons p ps ih =>
    cases ps with
    | nil =>
      constructor <;>
        simp [pagesToResps, pageResp, Download, ExecuteLeverRequest,
          dispatchEmit, unmarshalList, OutputList, he, emittedOf_append,
          emittedOf_map_emit, emittedOf_cons_fetch, emittedOf_nil]
    | cons q ps' =>
      have he1 : ({ e with Offset := p.next, HasNext := true } : Endpoint).Type'
          ∈ directTypes := he
      have ih1 := ih (e := { e with Offset := p.next, HasNext := true }) he1
        (List.cons_ne_nil q ps')
      constructor <;>
        simp [pagesToResps, pageResp, Download, ExecuteLeverRequest,
          dispatchEmit, unmarshalList, OutputList, he, emittedOf_append,
          emittedOf_map_emit, emittedOf_cons_fetch, ih1.1, ih1.2]

/-- Witness for C3 at a concrete two-page input. -/
theorem c3_download_drains_pages_witness :
    (Download downloadUsersEndpoint "" (NewCheckpoint "users")
        (pagesToResps [⟨["r1"], "t1"⟩, ⟨["r2", "r3"], ""⟩])).2 = .ok ()
    ∧ emittedOf (Download downloadUsersEndpoint "" (NewCheckpoint "users")
        (pagesToResps [⟨["r1"], "t1"⟩, ⟨["r2", "r3"], ""⟩])).1
        = ["r1", "r2", "r3"] :=
  c3_download_drains_pages downloadUsersEndpoint "" (NewCheckpoint "users")
    [⟨["r1"], "t1"⟩, ⟨["r2", "r3"], ""⟩] (by decide) (by decide)

/-- C10: when a fetched page's envelope `data` field decodes to JSON `null`
(a nil record slice), `OutputList` hits its `logrus.Panic` and the run
aborts (`panicNilData`), instead of treating it as zero records; for every
non-nil decoded list — the empty list included — each element is emitted in
index order and the pagination loop continues normally (here: exits cleanly
on has-more = false). -/
theorem c10_outputlist_nil_panics :
    OutputList none = .error .panicNilData
    ∧ (∀ recs : List String, OutputList (some recs) = .ok (recs.map Event.emit))
    ∧ (∀ (e : Endpoint) (n : String) (hn : Bool) (rest : List HttpResult),
        e.Type' ∈ listTypes →
        DownloadUsingListPages e (.response 200 (.envelope ⟨.null, n, hn⟩) :: rest)
          = ([Event.acquire, Event.fetch e.URLString], rest, .error .panicNilData))
    ∧ (∀ (e : Endpoint) (n : String) (rest : List HttpResult) (recs : List String),
        e.Type' ∈ listTypes →
        DownloadUsingListPages e
            (.response 200 (.envelope ⟨.records recs, n, false⟩) :: rest)
          = ([Event.acquire, Event.fetch e.URLString] ++ recs.map Event.emit, rest,
             .ok (.done { e with Offset := n, HasNext := false }))) := by
  refine ⟨rfl, fun recs => rfl, ?_, ?_⟩
  · intro e n hn rest ht
    simp [DownloadUsingListPages, ExecuteLeverRequest, dispatchEmit,
      unmarshalList, OutputList, ht]
  · intro e n rest recs ht
    simp [DownloadUsingListPages, ExecuteLeverRequest, dispatchEmit,
      unmarshalList, OutputList, ht]

/-- Witness for C10 at concrete inputs. -/
theorem c10_outputlist_nil_panics_witness :
    DownloadUsingListPages downloadInterviewsEndpoint
        [.response 200 (.envelope ⟨.null, "", false⟩)]
      = ([Event.acquire,
          Event.fetch "https://api.lever.co/v1/candidates/%s/interviews"],
         [], .error .panicNilData)
    ∧ DownloadUsingListPages downloadInterviewsEndpoint
        [.response 200 (.envelope ⟨.records [], "", false⟩)]
      = ([Event.acquire,
          Event.fetch "https://api.lever.co/v1/candidates/%s/interviews"],
         [], .ok (.done { downloadInterviewsEndpoint with
                          Offset := "", HasNext := false })) :=
  ⟨c10_outputlist_nil_panics.2.2.1 downloadInterviewsEndpoint "" false []
      (by decide),
   c10_outputlist_nil_panics.2.2.2 downloadInterviewsEndpoint "" [] []
      (by decide)⟩

/-- C5 counterexample: the claim says every 2xx response with a well-formed
envelope body succeeds, but `ExecuteLeverRequest` tests `!= 200`, so HTTP
201 with a perfectly well-formed envelope is rejected as an unexpected
status carrying the code and the target URL. -/
theorem c5_counterexample :
    ExecuteLeverRequest downloadUsersEndpoint
        (.response 201 (.envelope ⟨.records ["r1"], "", false⟩))
      = .error (.unexpectedStatus 201 "https://api.lever.co/v1/users") := rfl

/-- C5 amended: HTTP 404 yields the distinct `statusNotFound` value; any
other status different from 200 — non-2xx or 2xx alike — yields an error
carrying the status code and the target URL; a transport failure is
propagated; and a 200 response with a well-formed envelope succeeds,
returning the envelope and writing its cursor state onto the descriptor. -/
theorem c5_amended (e : Endpoint) (body : Body) (code : Nat) (msg : String)
    (ld : LeverData) (h200 : code ≠ 200) (h404 : code ≠ 404) :
    ExecuteLeverRequest e (.response 404 body) = .error .statusNotFound
    ∧ ExecuteLeverRequest e (.response code body)
        = .error (.unexpectedStatus code e.URLString)
    ∧ ExecuteLeverRequest e (.transportErr msg) = .error (.transport msg)
    ∧ ExecuteLeverRequest e (.response 200 (.envelope ld))
        = .ok (ld, { e with Offset := ld.Next, HasNext := ld.HasNext }) := by
  refine ⟨rfl, ?_, rfl, rfl⟩
  simp [ExecuteLeverRequest, h200, h404]

/-- Witness for C5 (amended) at status 500. -/
theorem c5_amended_witness :
    ExecuteLeverRequest downloadUsersEndpoint (.response 404 .malformed)
      = .error .statusNotFound
    ∧ ExecuteLeverRequest downloadUsersEndpoint (.response 500 .malformed)
        = .error (.unexpectedStatus 500 "https://api.lever.co/v1/users")
    ∧ ExecuteLeverRequest downloadUsersEndpoint (.transportErr "refused")
        = .error (.transport "refused")
    ∧ ExecuteLeverRequest downloadUsersEndpoint
          (.response 200 (.envelope ⟨.records ["r1"], "nx", true⟩))
        = .ok (⟨.records ["r1"], "nx", true⟩,
               { downloadUsersEndpoint with Offset := "nx", HasNext := true }) :=
  c5_amended downloadUsersEndpoint .malformed 500 "refused"
    ⟨.records ["r1"], "nx", true⟩ (by decide) (by decide)

/-- C8 counterexample: the claim says an empty key-source file yields a
fatal configuration error, but on an empty file `csv.Reader.Read` returns
`io.EOF` at once and `DownloadUsingList` returns `nil`: a fully successful
run that made no request, emitted nothing, and left the checkpoint
untouched. -/
theorem c8_counterexample :
    DownloadUsingList downloadInterviewsEndpoint "keys.csv" true []
        (NewCheckpoint "interviews") none [] []
      = ⟨[], .ok (), none, NewCheckpoint "interviews"⟩ := rfl

/-- C8 amended: an empty input *path* is fatal (`fatalNoInput`), and a
malformed key-source row is fatal when reached (`fatalCSV`); but an empty
key-source *file* is not an error: the run succeeds with zero keys, no
events, and an unchanged checkpoint. -/
theorem c8_amended (e : Endpoint) (input : String) (openOk : Bool)
    (rows : List CSVRead) (cp : Checkpoint) (durable : Option String)
    (resps : List HttpResult) (writes : List Bool) (hin : input ≠ "") :
    DownloadUsingList e "" openOk rows cp durable resps writes
      = ⟨[], .error .fatalNoInput, durable, cp⟩
    ∧ DownloadUsingList e input true (.malformed :: rows) cp durable resps writes
        = ⟨[], .error .fatalCSV, durable, cp⟩
    ∧ DownloadUsingList e input true [] cp durable resps writes
        = ⟨[], .ok (), durable, cp⟩ := by
  refine ⟨rfl, ?_, ?_⟩ <;> simp [DownloadUsingList, DownloadUsingListLoop, hin]

/-- Witness for C8 (amended) at concrete inputs. -/
theorem c8_amended_witness :
    DownloadUsingList downloadInterviewsEndpoint "" true []
        (NewCheckpoint "interviews") none [] []
      = ⟨[], .error .fatalNoInput, none, NewCheckpoint "interviews"⟩
    ∧ DownloadUsingList downloadInterviewsEndpoint "keys.csv" true
          [.malformed] (NewCheckpoint "interviews") none [] []
        = ⟨[], .error .fatalCSV, none, NewCheckpoint "interviews"⟩
    ∧ DownloadUsingList downloadInterviewsEndpoint "keys.csv" true []
          (NewCheckpoint "interviews") none [] []
        = ⟨[], .ok (), none, NewCheckpoint "interviews"⟩ :=
  c8_amended downloadInterviewsEndpoint "keys.csv" true []
    (NewCheckpoint "interviews") none [] [] (by decide)

theorem pages_acquiredOK (resps : List HttpResult) :
    ∀ (e : Endpoint) (tail : List Event), acquiredOK tail = true →
      acquiredOK ((DownloadUsingListPages e resps).1 ++ tail) = true := by
  induction resps with
  | nil => intro e tail ht; simpa using ht
  | cons r rest ih =>
    intro e tail ht
    simp only [DownloadUsingListPages]
    cases hx : ExecuteLeverRequest e r with
    | error err =>
      cases err <;> simpa [acquiredOK_cons_pair] using ht
    | ok pr =>
      obtain ⟨ld, e1⟩ := pr
      cases hd : dispatchEmit e1.Type' listTypes ld.Data with
      | error err => simpa [hd, acquiredOK_cons_pair] using ht
      | ok emits =>
        obtain ⟨recs, rfl⟩ := dispatchEmit_ok hd
        by_cases hn : e1.HasNext
        · have := ih e1 tail ht
          simpa [hd, hn, List.append_assoc, acquiredOK_cons_pair,
            acquiredOK_emit_append] using this
        · simpa [hd, hn, List.append_assoc, acquiredOK_cons_pair,
            acquiredOK_emit_append] using ht

theorem loop_acquiredOK (rows : List CSVRead) :
    ∀ (e : Endpoint) (cp : Checkpoint) (durable : Option String)
      (resps : List HttpResult) (writes : List Bool),
      acquiredOK (DownloadUsingListLoop e rows cp durable resps writes).events
        = true := by
  induction rows with
  | nil => intro e cp durable resps writes; rfl
  | cons row rest ih =>
    intro e cp durable resps writes
    cases row with
    | malformed => rfl
    | row candidateID flds =>
      simp only [DownloadUsingListLoop]
      by_cases hr : (cp.ReachedCheckpoint durable candidateID).1
      · simp only [hr, if_true]
        cases ht : (DownloadUsingListPages
            { e with Arguments := [candidateID] } resps).2.2 with
        | error err =>
          simpa using pages_acquiredOK resps
            { e with Arguments := [candidateID] } [] rfl
        | ok pexit =>
          by_cases hw : (popWrite writes).1
          · simp only [Checkpoint.CheckPoint, hw, if_true]
            refine pages_acquiredOK resps _ _ ?_
            simpa [acquiredOK_cons_persist] using ih _ _ _ _ _
          · simp only [Checkpoint.CheckPoint, hw, if_false]
            simpa using pages_acquiredOK resps
              { e with Arguments := [candidateID] } [] rfl
      · simp only [hr, if_false]
        exact ih _ _ _ _ _

theorem download_noAcquire (resps : List HttpResult) :
    ∀ (e : Endpoint) (input : String) (st : Checkpoint),
      noAcquire (Download e input st resps).1 = true := by
  induction resps with
  | nil => intro e input st; rfl
  | cons r rest ih =>
    intro e input st
    simp only [Download]
    cases hx : ExecuteLeverRequest e r with
    | error err => simp [noAcquire, isAcquire]
    | ok pr =>
      obtain ⟨ld, e1⟩ := pr
      cases hd : dispatchEmit e1.Type' directTypes ld.Data with
      | error err => simp [hd, noAcquire, isAcquire]
      | ok emits =>
        obtain ⟨recs, rfl⟩ := dispatchEmit_ok hd
        by_cases hn : e1.HasNext <;>
          simp [hd, hn, noAcquire_cons_fetch, noAcquire_append,
            noAcquire_map_emit, ih e1 input st]

/-- C4 counterexample: the claim says every outbound network call, in both
orchestrators, is preceded by acquiring a rate-limit permit; but the direct
orchestrator `Download` has no throttle at all — this concrete direct run
performs a fetch while its event trace contains no `acquire` whatsoever. -/
theorem c4_counterexample :
    Download downloadUsersEndpoint "" (NewCheckpoint "users")
        [.response 200 (.envelope ⟨.records ["u1"], "", false⟩)]
      = ([Event.fetch "https://api.lever.co/v1/users", Event.emit "u1"], .ok ())
    ∧ noAcquire [Event.fetch "https://api.lever.co/v1/users", Event.emit "u1"]
        = true := ⟨rfl, rfl⟩

/-- C4 amended: rate limiting exists only in the list-driven orchestrator,
whose `throttle := time.Tick(time.Second / 10)` (a 100 ms interval,
`throttleRateMs`) is received from once immediately before every fetch — in
every list-driven run each `fetch` event is directly preceded by its own
`acquire` event; the direct orchestrator `Download` acquires no permit for
any of its fetches. -/
theorem c4_amended :
    throttleRateMs = 100
    ∧ (∀ (e : Endpoint) (input : String) (openOk : Bool) (rows : List CSVRead)
        (cp : Checkpoint) (durable : Option String) (resps : List HttpResult)
        (writes : List Bool),
        acquiredOK
          (DownloadUsingList e input openOk rows cp durable resps writes).events
          = true)
    ∧ (∀ (e : Endpoint) (input : String) (st : Checkpoint)
        (resps : List HttpResult),
        noAcquire (Download e input st resps).1 = true) := by
  refine ⟨rfl, ?_, fun e input st resps => download_noAcquire resps e input st⟩
  intro e input openOk rows cp durable resps writes
  by_cases hi : input = ""
  · simp [DownloadUsingList, hi, acquiredOK_nil]
  · by_cases ho : openOk
    · simpa [DownloadUsingList, hi, ho] using
        loop_acquiredOK rows e cp durable resps writes
    · simp [DownloadUsingList, hi, ho, acquiredOK_nil]

/-- C6: checkpoint advance is atomic per key.  First conjunct: whenever the
drain of the in-progress key fails — transport failure, unexpected status,
envelope-decode failure returned by the fetch, fatal typed-decode failure,
or any other abort — the list-driven loop stops with exactly that error,
the durable checkpoint record is left exactly as it was when the key
started (the last fully-completed key's value), and the key's event trace
contains no durable write at all.  Second conjunct: if instead the key
drains fine but persisting it fails, the run aborts with `fatalPersist`
and the durable record is likewise unchanged. -/
theorem c6_checkpoint_atomic :
    (∀ (e : Endpoint) (key : String) (flds : List String) (rows : List CSVRead)
        (cp : Checkpoint) (durable : Option String) (resps : List HttpResult)
        (writes : List Bool) (evs : List Event) (rest : List HttpResult)
        (err : RunErr),
        (cp.ReachedCheckpoint durable key).1 = true →
        DownloadUsingListPages { e with Arguments := [key] } resps
          = (evs, rest, .error err) →
        DownloadUsingListLoop e (.row key flds :: rows) cp durable resps writes
          = ⟨evs, .error err, durable, (cp.ReachedCheckpoint durable key).2⟩
        ∧ persistsOf evs = [])
    ∧ (∀ (e : Endpoint) (key : String) (flds : List String) (rows : List CSVRead)
        (cp : Checkpoint) (durable : Option String) (resps : List HttpResult)
        (ws : List Bool) (evs : List Event) (rest : List HttpResult)
        (pexit : PageExit),
        (cp.ReachedCheckpoint durable key).1 = true →
        DownloadUsingListPages { e with Arguments := [key] } resps
          = (evs, rest, .ok pexit) →
        DownloadUsingListLoop e (.row key flds :: rows) cp durable resps
            (false :: ws)
          = ⟨evs, .error .fatalPersist, durable,
             (cp.ReachedCheckpoint durable key).2.UpdateLastID key⟩
        ∧ persistsOf evs = []) := by
  constructor
  · intro e key flds rows cp durable resps writes evs rest err hr hp
    constructor
    · simp [DownloadUsingListLoop, hr, hp]
    · have h := pages_no_persist resps { e with Arguments := [key] }
      rw [hp] at h
      exact h
  · intro e key flds rows cp durable resps ws evs rest pexit hr hp
    constructor
    · simp [DownloadUsingListLoop, hr, hp, popWrite, Checkpoint.CheckPoint]
    · have h := pages_no_persist resps { e with Arguments := [key] }
      rw [hp] at h
      exact h

/-- Witness for C6: a transport failure on key "a"'s first fetch aborts the
run with the durable record untouched, and a persistence failure after a
clean drain aborts with `fatalPersist` and an untouched durable record. -/
theorem c6_checkpoint_atomic_witness :
    DownloadUsingListLoop downloadInterviewsEndpoint
        (.row "a" [] :: []) (NewCheckpoint "interviews") none
        [.transportErr "boom"] []
      = ⟨[Event.acquire,
          Event.fetch "https://api.lever.co/v1/candidates/a/interviews"],
         .error (.transport "boom"), none,
         (Checkpoint.ReachedCheckpoint (NewCheckpoint "interviews") none "a").2⟩
    ∧ DownloadUsingListLoop downloadInterviewsEndpoint
          (.row "a" [] :: []) (NewCheckpoint "interviews") none
          [.response 200 (.envelope ⟨.records ["a1"], "", false⟩)] (false :: [])
        = ⟨[Event.acquire,
            Event.fetch "https://api.lever.co/v1/candidates/a/interviews",
            Event.emit "a1"],
           .error .fatalPersist, none,
           ((Checkpoint.ReachedCheckpoint (NewCheckpoint "interviews") none
               "a").2).UpdateLastID "a"⟩ :=
  ⟨(c6_checkpoint_atomic.1 downloadInterviewsEndpoint "a" [] []
      (NewCheckpoint "interviews") none [.transportErr "boom"] []
      [Event.acquire,
       Event.fetch "https://api.lever.co/v1/candidates/a/interviews"]
      [] (.transport "boom") rfl rfl).1,
   (c6_checkpoint_atomic.2 downloadInterviewsEndpoint "a" [] []
      (NewCheckpoint "interviews") none
      [.response 200 (.envelope ⟨.records ["a1"], "", false⟩)] []
      [Event.acquire,
       Event.fetch "https://api.lever.co/v1/candidates/a/interviews",
       Event.emit "a1"]
      [] (.done { downloadInterviewsEndpoint with
                  Arguments := ["a"], Offset := "", HasNext := false })
      rfl rfl).1⟩

/-- C7 counterexample: the claim says every key whose fetch fails with 404
is skipped *without emitting records*.  Here key "a"'s first page succeeds
(emitting "a1", with has-more = true) and its second fetch returns 404: the
run does move on and does checkpoint "a", but it has emitted a record for
the 404'd key — so "skipped without emitting records" is false for keys
that 404 mid-pagination. -/
theorem c7_counterexample :
    DownloadUsingList downloadInterviewsEndpoint "keys.csv" true
        (keysToRows ["a"]) (NewCheckpoint "interviews") none
        [.response 200 (.envelope ⟨.records ["a1"], "", true⟩),
         .response 404 .malformed] []
      = ⟨[Event.acquire,
          Event.fetch "https://api.lever.co/v1/candidates/a/interviews",
          Event.emit "a1",
          Event.acquire,
          Event.fetch "https://api.lever.co/v1/candidates/a/interviews",
          Event.persist "a"],
         .ok (), some "a",
         ⟨"/tmp/interviews_candidate_id", "a", true⟩⟩
    ∧ emittedOf
        [Event.acquire,
         Event.fetch "https://api.lever.co/v1/candidates/a/interviews",
         Event.emit "a1",
         Event.acquire,
         Event.fetch "https://api.lever.co/v1/candidates/a/interviews",
         Event.persist "a"] = ["a1"] := ⟨rfl, rfl⟩

/-- C7 amended: a fetch answered with HTTP 404 ends the current key's
pagination via the `StatusNotFound` break without emitting anything for
that fetch (first conjunct: the page loop returns `notFound` right after
the `acquire`/`fetch` events — so a key whose *first* fetch 404s emits
nothing at all, while records of its earlier successful pages have already
been emitted); and the run is not aborted: the orchestrator records the
404'd key as completed — `UpdateLastID` plus a durable `persist` of the key
— and continues with the next row (second conjunct). -/
theorem c7_amended :
    (∀ (e : Endpoint) (body : Body) (rest : List HttpResult),
        DownloadUsingListPages e (.response 404 body :: rest)
          = ([Event.acquire, Event.fetch e.URLString], rest, .ok (.notFound e)))
    ∧ (∀ (e e2 : Endpoint) (key : String) (flds : List String)
        (rows : List CSVRead) (cp : Checkpoint) (durable : Option String)
        (resps : List HttpResult) (ws : List Bool) (evs : List Event)
        (rest : List HttpResult),
        (cp.ReachedCheckpoint durable key).1 = true →
        key ≠ "" →
        DownloadUsingListPages { e with Arguments := [key] } resps
          = (evs, rest, .ok (.notFound e2)) →
        (let cont := DownloadUsingListLoop e2 rows
            ((cp.ReachedCheckpoint durable key).2.UpdateLastID key)
            (some key) rest ws;
         DownloadUsingListLoop e (.row key flds :: rows) cp durable resps
             (true :: ws)
           = ⟨evs ++ Event.persist key :: cont.events, cont.result,
              cont.durable, cont.cp⟩)) := by
  constructor
  · intro e body rest
    simp [DownloadUsingListPages, ExecuteLeverRequest]
  · intro e e2 key flds rows cp durable resps ws evs rest hr hk hp
    simp [DownloadUsingListLoop, hr, hp, popWrite, Checkpoint.CheckPoint,
      Checkpoint.UpdateLastID, Checkpoint.LastProcessedID, hk]

/-- Witness for C7 (amended): key "b" 404s on its first fetch; nothing is
emitted for it, it is persisted as completed, and the (empty) remainder of
the run proceeds. -/
theorem c7_amended_witness :
    DownloadUsingListPages
        { downloadInterviewsEndpoint with Arguments := ["b"] }
        [.response 404 .malformed]
      = ([Event.acquire,
          Event.fetch "https://api.lever.co/v1/candidates/b/interviews"],
         [], .ok (.notFound { downloadInterviewsEndpoint with
                              Arguments := ["b"] }))
    ∧ DownloadUsingListLoop downloadInterviewsEndpoint
          (.row "b" [] :: []) ⟨"/tmp/interviews_candidate_id", "b", false⟩
          (some "b") [.response 404 .malformed] (true :: [])
        = ⟨[Event.acquire,
            Event.fetch "https://api.lever.co/v1/candidates/b/interviews",
            Event.persist "b"],
           .ok (), some "b", ⟨"/tmp/interviews_candidate_id", "b", true⟩⟩ :=
  ⟨c7_amended.1 { downloadInterviewsEndpoint with Arguments := ["b"] }
      .malformed [],
   c7_amended.2 downloadInterviewsEndpoint
      { downloadInterviewsEndpoint with Arguments := ["b"] } "b" [] []
      ⟨"/tmp/interviews_candidate_id", "b", false⟩ (some "b")
      [.response 404 .malformed] [] 
      [Event.acquire,
       Event.fetch "https://api.lever.co/v1/candidates/b/interviews"]
      [] rfl (by decide) rfl⟩

theorem mem_setParam (q : List (String × String)) (k v : String) :
    (k, v) ∈ setParam q k v := by
  unfold setParam
  split
  · rename_i h
    rw [List.any_eq_true] at h
    obtain ⟨p, hp, hpk⟩ := h
    have hmem := List.mem_map_of_mem
      (fun p : String × String => if p.1 == k then (k, v) else p) hp
    have hb : (fun p : String × String => if p.1 == k then (k, v) else p) p
        = (k, v) := by simp [hpk]
    rw [hb] at hmem
    exact hmem
  · simp

/-- C2 counterexample: the claim says the first request issued for every
key carries no offset parameter.  With no prior checkpoint and two keys,
key "a"'s single page ends with has-more = false but a non-empty `next`
token "tok1"; `ExecuteLeverRequest` wrote it onto the shared descriptor and
nothing resets it, so key "b"'s *first* request is sent to
`.../candidates/b/interviews?offset=tok1`. -/
theorem c2_counterexample :
    DownloadUsingList downloadInterviewsEndpoint "keys.csv" true
        (keysToRows ["a", "b"]) (NewCheckpoint "interviews") none
        [.response 200 (.envelope ⟨.records ["a1"], "tok1", false⟩),
         .response 200 (.envelope ⟨.records ["b1"], "", false⟩)] []
      = ⟨[Event.acquire,
          Event.fetch "https://api.lever.co/v1/candidates/a/interviews",
          Event.emit "a1",
          Event.persist "a",
          Event.acquire,
          Event.fetch
            "https://api.lever.co/v1/candidates/b/interviews?offset=tok1",
          Event.emit "b1",
          Event.persist "b"],
         .ok (), some "b",
         ⟨"/tmp/interviews_candidate_id", "b", true⟩⟩ := rfl

/-- C2 amended: the descriptor's mutable pagination state is *not* cloned
fresh per key.  First conjunct: after a key's drain exits, the loop carries
the very descriptor returned by the drain — cursor state included — into
the next key.  Second conjunct: whenever the descriptor's `Offset` is
non-empty, the URL it builds carries that offset as a query parameter, so
the next key's first request inherits the previous key's final `next`
token whenever that token is non-empty.  Third conjunct: only a descriptor
whose `Offset` is empty (with no static query parameters), such as the
registry descriptor at the start of the first processed key, builds an
offset-free first request. -/
theorem c2_amended :
    (∀ (e e2 : Endpoint) (key : String) (flds : List String)
        (rows : List CSVRead) (cp : Checkpoint) (durable : Option String)
        (resps : List HttpResult) (ws : List Bool) (evs : List Event)
        (rest : List HttpResult),
        (cp.ReachedCheckpoint durable key).1 = true →
        key ≠ "" →
        DownloadUsingListPages { e with Arguments := [key] } resps
          = (evs, rest, .ok (.done e2)) →
        (let cont := DownloadUsingListLoop e2 rows
            ((cp.ReachedCheckpoint durable key).2.UpdateLastID key)
            (some key) rest ws;
         DownloadUsingListLoop e (.row key flds :: rows) cp durable resps
             (true :: ws)
           = ⟨evs ++ Event.persist key :: cont.events, cont.result,
              cont.durable, cont.cp⟩))
    ∧ (∀ e : Endpoint, e.Offset ≠ "" → ("offset", e.Offset) ∈ e.urlQuery)
    ∧ (∀ e : Endpoint, e.Offset = "" → e.QueryParams = [] →
        e.urlQuery = [] ∧ e.URLString = e.URL) := by
  refine ⟨?_, ?_, ?_⟩
  · intro e e2 key flds rows cp durable resps ws evs rest hr hk hp
    simp [DownloadUsingListLoop, hr, hp, popWrite, Checkpoint.CheckPoint,
      Checkpoint.UpdateLastID, Checkpoint.LastProcessedID, hk]
  · intro e h
    simp only [Endpoint.urlQuery, h, ne_eq, not_false_eq_true, if_true]
    exact mem_setParam _ "offset" e.Offset
  · intro e h hq
    constructor <;> simp [Endpoint.urlQuery, Endpoint.URLString, h, hq]

/-- Witness for C2 (amended): key "a" drains to a descriptor whose offset
is the leaked token "tok1"; that descriptor is what the loop hands to the
next key, and a descriptor with offset "tok1" puts `offset=tok1` in its
query, while the pristine registry descriptor builds an offset-free URL. -/
theorem c2_amended_witness :
    (let cont := DownloadUsingListLoop
        { downloadInterviewsEndpoint with
          Arguments := ["a"], Offset := "tok1", HasNext := false }
        [] (Checkpoint.UpdateLastID
              (Checkpoint.ReachedCheckpoint (NewCheckpoint "interviews")
                none "a").2 "a")
        (some "a") [] [];
     DownloadUsingListLoop downloadInterviewsEndpoint
         (.row "a" [] :: []) (NewCheckpoint "interviews") none
         [.response 200 (.envelope ⟨.records ["a1"], "tok1", false⟩)]
         (true :: [])
       = ⟨[Event.acquire,
           Event.fetch "https://api.lever.co/v1/candidates/a/interviews",
           Event.emit "a1"] ++ Event.persist "a" :: cont.events,
          cont.result, cont.durable, cont.cp⟩)
    ∧ ("offset", "tok1")
        ∈ ({ downloadInterviewsEndpoint with
             Arguments := ["b"], Offset := "tok1" } : Endpoint).urlQuery
    ∧ downloadInterviewsEndpoint.urlQuery = []
    ∧ downloadInterviewsEndpoint.URLString = downloadInterviewsEndpoint.URL :=
  ⟨c2_amended.1 downloadInterviewsEndpoint
      { downloadInterviewsEndpoint with
        Arguments := ["a"], Offset := "tok1", HasNext := false }
      "a" [] [] (NewCheckpoint "interviews") none
      [.response 200 (.envelope ⟨.records ["a1"], "tok1", false⟩)] []
      [Event.acquire,
       Event.fetch "https://api.lever.co/v1/candidates/a/interviews",
       Event.emit "a1"]
      [] rfl (by decide) rfl,
   c2_amended.2.1 { downloadInterviewsEndpoint with
                    Arguments := ["b"], Offset := "tok1" } (by decide),
   (c2_amended.2.2 downloadInterviewsEndpoint rfl rfl).1,
   (c2_amended.2.2 downloadInterviewsEndpoint rfl rfl).2⟩

theorem download_head_fetch (e : Endpoint) (input : String) (st : Checkpoint)
    (r : HttpResult) (rest : List HttpResult) :
    (Download e input st (r :: rest)).1.head? = some (Event.fetch e.URLString) := by
  simp only [Download]
  cases hx : ExecuteLeverRequest e r with
  | error err => rfl
  | ok pr =>
    obtain ⟨ld2, e2⟩ := pr
    cases hd2 : dispatchEmit e2.Type' directTypes ld2.Data with
    | error err => simp [hd2]
    | ok emits => by_cases hn2 : e2.HasNext <;> simp [hd2, hn2]

/-- C9 counterexample: the claim says the direct orchestrator never uses
the updated offset, so every request of a direct run targets the same
first-page URL.  In fact `Download` mutates its own descriptor through the
pointer it passes to `ExecuteLeverRequest`, and the next iteration builds
its request from that descriptor: this two-page direct run's second fetch
goes to `.../users?offset=t1` — a different URL than the first fetch,
carrying exactly the first page's `next` token. -/
theorem c9_counterexample :
    Download downloadUsersEndpoint "" (NewCheckpoint "users")
        [.response 200 (.envelope ⟨.records ["r1"], "t1", true⟩),
         .response 200 (.envelope ⟨.records ["r2"], "", false⟩)]
      = ([Event.fetch "https://api.lever.co/v1/users",
          Event.emit "r1",
          Event.fetch "https://api.lever.co/v1/users?offset=t1",
          Event.emit "r2"], .ok ())
    ∧ ("https://api.lever.co/v1/users?offset=t1"
        ≠ "https://api.lever.co/v1/users") := ⟨rfl, by decide⟩

/-- C9 amended: the offset written onto the descriptor after each fetch
*is* used by the next request of the direct run: after a successful page
with has-more = true, `Download` continues with the descriptor updated to
that page's `next` token, and (second conjunct) whenever responses remain,
the continuation's first event is a fetch of the URL built from that
updated descriptor — which carries `offset=<next>` whenever the token is
non-empty, since a non-empty `Offset` always lands in `urlQuery`. -/
theorem c9_amended (e : Endpoint) (ld : LeverData) (recs : List String)
    (rest : List HttpResult) (input : String) (st : Checkpoint)
    (he : e.Type' ∈ directTypes) (hd : ld.Data = .records recs)
    (hn : ld.HasNext = true) :
    Download e input st (.response 200 (.envelope ld) :: rest)
      = (Event.fetch e.URLString :: recs.map Event.emit
           ++ (Download { e with Offset := ld.Next, HasNext := ld.HasNext }
                input st rest).1,
         (Download { e with Offset := ld.Next, HasNext := ld.HasNext }
            input st rest).2)
    ∧ (∀ (r2 : HttpResult) (rest2 : List HttpResult),
        (Download { e with Offset := ld.Next, HasNext := ld.HasNext }
            input st (r2 :: rest2)).1.head?
          = some (Event.fetch
              ({ e with Offset := ld.Next, HasNext := ld.HasNext }
                : Endpoint).URLString)) := by
  constructor
  · simp [Download, ExecuteLeverRequest, dispatchEmit, unmarshalList,
      OutputList, he, hd, hn]
  · intro r2 rest2
    exact download_head_fetch _ input st r2 rest2

/-- Witness for C9 (amended): the first page carries `next = "t1"`, and the
second request is built from the descriptor updated to offset "t1". -/
theorem c9_amended_witness :
    Download downloadUsersEndpoint "" (NewCheckpoint "users")
        (.response 200 (.envelope ⟨.records ["r1"], "t1", true⟩)
          :: [.response 200 (.envelope ⟨.records ["r2"], "", false⟩)])
      = (Event.fetch "https://api.lever.co/v1/users"
           :: ["r1"].map Event.emit
           ++ (Download { downloadUsersEndpoint with
                          Offset := "t1", HasNext := true } ""
                (NewCheckpoint "users")
                [.response 200 (.envelope ⟨.records ["r2"], "", false⟩)]).1,
         (Download { downloadUsersEndpoint with
                     Offset := "t1", HasNext := true } ""
            (NewCheckpoint "users")
            [.response 200 (.envelope ⟨.records ["r2"], "", false⟩)]).2)
    ∧ (∀ (r2 : HttpResult) (rest2 : List HttpResult),
        (Download { downloadUsersEndpoint with
                    Offset := "t1", HasNext := true } ""
            (NewCheckpoint "users") (r2 :: rest2)).1.head?
          = some (Event.fetch ({ downloadUsersEndpoint with
              Offset := "t1", HasNext := true } : Endpoint).URLString)) :=
  c9_amended downloadUsersEndpoint ⟨.records ["r1"], "t1", true⟩ ["r1"]
    [.response 200 (.envelope ⟨.records ["r2"], "", false⟩)] ""
    (NewCheckpoint "users") (by decide) rfl rfl

theorem reached_fresh_skip (fp k id : String) (hk : k ≠ "") (hid : id ≠ k) :
    Checkpoint.ReachedCheckpoint ⟨fp, "", false⟩ (some k) id
      = (false, ⟨fp, k, false⟩) := by
  simp [Checkpoint.ReachedCheckpoint, Checkpoint.LastProcessedID, readDurable,
    hk, hid]

theorem reached_seen_skip (fp k id : String) (hk : k ≠ "") (hid : id ≠ k) :
    Checkpoint.ReachedCheckpoint ⟨fp, k, false⟩ (some k) id
      = (false, ⟨fp, k, false⟩) := by
  simp [Checkpoint.ReachedCheckpoint, Checkpoint.LastProcessedID, readDurable,
    hk, hid]

theorem reached_at_key (fp k : String) (hk : k ≠ "") :
    Checkpoint.ReachedCheckpoint ⟨fp, "", false⟩ (some k) k
      = (true, ⟨fp, k, true⟩) := by
  simp [Checkpoint.ReachedCheckpoint, Checkpoint.LastProcessedID, readDurable,
    hk]

theorem reached_fresh_eq_seen (fp k : String) (hk : k ≠ "") (id : String) :
    Checkpoint.ReachedCheckpoint ⟨fp, "", false⟩ (some k) id
      = Checkpoint.ReachedCheckpoint ⟨fp, k, false⟩ (some k) id := by
  simp [Checkpoint.ReachedCheckpoint, Checkpoint.LastProcessedID, readDurable,
    hk]

theorem loop_skip_step_fresh (k : String) (hk : k ≠ "") (e : Endpoint)
    (fp p : String) (hp : p ≠ k) (flds : List String) (rows : List CSVRead)
    (resps : List HttpResult) (writes : List Bool) :
    DownloadUsingListLoop e (.row p flds :: rows) ⟨fp, "", false⟩ (some k)
        resps writes
      = DownloadUsingListLoop e rows ⟨fp, k, false⟩ (some k) resps writes := by
  conv_lhs => rw [DownloadUsingListLoop]
  rw [reached_fresh_skip fp k p hk hp]
  rfl

theorem loop_skip_step_seen (k : String) (hk : k ≠ "") (e : Endpoint)
    (fp p : String) (hp : p ≠ k) (flds : List String) (rows : List CSVRead)
    (resps : List HttpResult) (writes : List Bool) :
    DownloadUsingListLoop e (.row p flds :: rows) ⟨fp, k, false⟩ (some k)
        resps writes
      = DownloadUsingListLoop e rows ⟨fp, k, false⟩ (some k) resps writes := by
  conv_lhs => rw [DownloadUsingListLoop]
  rw [reached_seen_skip fp k p hk hp]
  rfl

theorem skip_pre (k : String) (hk : k ≠ "") :
    ∀ pre : List String, k ∉ pre →
    ∀ (e : Endpoint) (fp : String) (rows : List CSVRead)
      (resps : List HttpResult) (writes : List Bool),
      DownloadUsingListLoop e (keysToRows pre ++ rows) ⟨fp, k, false⟩ (some k)
          resps writes
        = DownloadUsingListLoop e rows ⟨fp, k, false⟩ (some k) resps writes := by
  intro pre
  induction pre with
  | nil => intro _ e fp rows resps writes; rfl
  | cons p ps ih =>
    intro hpre e fp rows resps writes
    have hp : p ≠ k := by
      intro h
      exact hpre (h ▸ List.mem_cons_self p ps)
    have hps : k ∉ ps := fun h => hpre (List.mem_cons_of_mem p h)
    calc
      DownloadUsingListLoop e (keysToRows (p :: ps) ++ rows) ⟨fp, k, false⟩
          (some k) resps writes
          = DownloadUsingListLoop e (.row p [] :: (keysToRows ps ++ rows))
              ⟨fp, k, false⟩ (some k) resps writes := by
            simp only [keysToRows, List.map_cons, List.cons_append]
      _ = DownloadUsingListLoop e (keysToRows ps ++ rows) ⟨fp, k, false⟩
            (some k) resps writes :=
          loop_skip_step_seen k hk e fp p hp [] (keysToRows ps ++ rows)
            resps writes
      _ = DownloadUsingListLoop e rows ⟨fp, k, false⟩ (some k) resps writes :=
          ih hps e fp rows resps writes

theorem loop_fresh_eq_seen (k : String) (hk : k ≠ "") (e : Endpoint)
    (fp id : String) (flds : List String) (rows : List CSVRead)
    (resps : List HttpResult) (writes : List Bool) :
    DownloadUsingListLoop e (.row id flds :: rows) ⟨fp, "", false⟩ (some k)
        resps writes
      = DownloadUsingListLoop e (.row id flds :: rows) ⟨fp, k, false⟩ (some k)
          resps writes := by
  conv_lhs => rw [DownloadUsingListLoop]
  conv_rhs => rw [DownloadUsingListLoop]
  rw [reached_fresh_eq_seen fp k hk id]

/-- C1 counterexample: with durable checkpoint "b" and key source
a, b, c, the claim says keys up to *and including* "b" are skipped (no
network call, no records for them).  The run in fact skips only "a":
`ReachedCheckpoint` latches true *at* "b" and returns the latch, so the
checkpointed key "b" itself is fetched again and its records re-emitted. -/
theorem c1_counterexample :
    DownloadUsingList downloadInterviewsEndpoint "keys.csv" true
        (keysToRows ["a", "b", "c"]) (NewCheckpoint "interviews") (some "b")
        [.response 200 (.envelope ⟨.records ["b1", "b2"], "", false⟩),
         .response 200 (.envelope ⟨.records ["c1", "c2"], "", false⟩)] []
      = ⟨[Event.acquire,
          Event.fetch "https://api.lever.co/v1/candidates/b/interviews",
          Event.emit "b1", Event.emit "b2",
          Event.persist "b",
          Event.acquire,
          Event.fetch "https://api.lever.co/v1/candidates/c/interviews",
          Event.emit "c1", Event.emit "c2",
          Event.persist "c"],
         .ok (), some "c",
         ⟨"/tmp/interviews_candidate_id", "c", true⟩⟩
    ∧ emittedOf
        [Event.acquire,
         Event.fetch "https://api.lever.co/v1/candidates/b/interviews",
         Event.emit "b1", Event.emit "b2",
         Event.persist "b",
         Event.acquire,
         Event.fetch "https://api.lever.co/v1/candidates/c/interviews",
         Event.emit "c1", Event.emit "c2",
         Event.persist "c"] = ["b1", "b2", "c1", "c2"] := ⟨rfl, rfl⟩

/-- C1 amended: for every non-empty durable checkpoint value k and every
key source of the form pre ++ k :: post with k not in pre, a list-driven
run skips every key *strictly before* the first occurrence of k — the run
is identical, events and all, to the run over k :: post alone — and then
processes k itself and every key after it, in source order:
`ReachedCheckpoint` answers true at k (so k is re-processed, not skipped)
and false at every key other than k while the latch is fresh. -/
theorem c1_amended (e : Endpoint) (fp k : String) (pre post : List String)
    (resps : List HttpResult) (writes : List Bool)
    (hk : k ≠ "") (hpre : k ∉ pre) :
    DownloadUsingListLoop e (keysToRows (pre ++ k :: post)) ⟨fp, "", false⟩
        (some k) resps writes
      = DownloadUsingListLoop e (keysToRows (k :: post)) ⟨fp, "", false⟩
          (some k) resps writes
    ∧ (Checkpoint.ReachedCheckpoint ⟨fp, "", false⟩ (some k) k).1 = true
    ∧ (∀ p : String, p ≠ k →
        (Checkpoint.ReachedCheckpoint ⟨fp, "", false⟩ (some k) p).1 = false) := by
  refine ⟨?_, ?_, ?_⟩
  · cases pre with
    | nil => rfl
    | cons p ps =>
      have hp : p ≠ k := by
        intro h
        exact hpre (h ▸ List.mem_cons_self p ps)
      have hps : k ∉ ps := fun h => hpre (List.mem_cons_of_mem p h)
      calc
        DownloadUsingListLoop e (keysToRows ((p :: ps) ++ k :: post))
            ⟨fp, "", false⟩ (some k) resps writes
            = DownloadUsingListLoop e
                (.row p [] :: (keysToRows ps ++ keysToRows (k :: post)))
                ⟨fp, "", false⟩ (some k) resps writes := by
              simp only [keysToRows, List.map_cons, List.map_append,
                List.cons_append]
        _ = DownloadUsingListLoop e (keysToRows ps ++ keysToRows (k :: post))
              ⟨fp, k, false⟩ (some k) resps writes :=
            loop_skip_step_fresh k hk e fp p hp []
              (keysToRows ps ++ keysToRows (k :: post)) resps writes
        _ = DownloadUsingListLoop e (keysToRows (k :: post)) ⟨fp, k, false⟩
              (some k) resps writes :=
            skip_pre k hk ps hps e fp (keysToRows (k :: post)) resps writes
        _ = DownloadUsingListLoop e (.row k [] :: keysToRows post)
              ⟨fp, k, false⟩ (some k) resps writes := by
              simp only [keysToRows, List.map_cons]
        _ = DownloadUsingListLoop e (.row k [] :: keysToRows post)
              ⟨fp, "", false⟩ (some k) resps writes :=
            (loop_fresh_eq_seen k hk e fp k [] (keysToRows post)
              resps writes).symm
        _ = DownloadUsingListLoop e (keysToRows (k :: post)) ⟨fp, "", false⟩
              (some k) resps writes := by
              simp only [keysToRows, List.map_cons]
  · rw [reached_at_key fp k hk]
  · intro p hp
    rw [reached_fresh_skip fp k p hk hp]

/-- Witness for C1 (amended) with durable checkpoint "b" over the key
source a, b, c. -/
theorem c1_amended_witness :
    DownloadUsingListLoop downloadInterviewsEndpoint
        (keysToRows (["a"] ++ "b" :: ["c"]))
        ⟨"/tmp/interviews_candidate_id", "", false⟩ (some "b") [] []
      = DownloadUsingListLoop downloadInterviewsEndpoint
          (keysToRows ("b" :: ["c"]))
          ⟨"/tmp/interviews_candidate_id", "", false⟩ (some "b") [] []
    ∧ (Checkpoint.ReachedCheckpoint
        ⟨"/tmp/interviews_candidate_id", "", false⟩ (some "b") "b").1 = true
    ∧ (Checkpoint.ReachedCheckpoint
        ⟨"/tmp/interviews_candidate_id", "", false⟩ (some "b") "a").1 = false :=
  have h := c1_amended downloadInterviewsEndpoint
    "/tmp/interviews_candidate_id" "b" ["a"] ["c"] [] [] (by decide) (by decide)
  ⟨h.1, h.2.1, h.2.2 "a" (by decide)⟩
